import Mathlib

/-!
Shallow embedding of the Accipit IR interpreter (`accipit_interpreter.py`).

The AST types mirror the Python dataclasses produced by the parser, and the
evaluator mirrors the `eval` methods.  Python runtime behaviour that the
interpreter relies on is modelled explicitly:

* Python integers are unbounded (`Int`), `//` is floor division (`Int.fdiv`)
  and `%` is floor remainder (`Int.fmod`, sign of the divisor);
* `dict.get` yields `None` for a missing key (`pyFromOption`);
* list indexing accepts negative indices, which count from the end, and
  raises `IndexError` outside `[-len, len)` (`pyIndex`, `pySetIndex`);
* calling a missing method raises `AttributeError`; dividing by zero raises
  `ZeroDivisionError`; uncaught exceptions terminate the process with exit
  status 1.

Execution of basic blocks can loop (`jmp`/`br`), so the block-level
evaluator takes a fuel parameter; running out of fuel produces the
`outOfFuel` result, which is a modelling device and not a Python behaviour.
-/

/-- Types of the IR (`i32`, `()`, `T*`, `fn(...) -> T`).  The evaluator never
inspects them; they are carried so that the AST has the same shape as the
source dataclasses. -/
inductive Ty where
  | i32 : Ty
  | unit : Ty
  | pointer (inner : String) : Ty
  | funType (params : List String) (ret : String) : Ty
deriving DecidableEq

/-- The binary operator token of a `BinExpr`.  The parser only ever produces
these fourteen tokens, so the `SemanticError` branch for an unknown operator
in `BinExpr.eval` is unreachable and has no constructor here. -/
inductive BinOp where
  | add | sub | mul | div | rem
  | and | or | xor
  | eq | ne | lt | le | gt | ge
deriving DecidableEq

/-- The `Value` union of the source: `IntConst`, `NoneConst`, `UnitConst`,
`Ident`.  Identifier names carry their region prefix (`@`, `#`, `%`). -/
inductive Value where
  | intConst (value : Int) : Value
  | noneConst : Value
  | unitConst : Value
  | ident (name : String) : Value
deriving DecidableEq

/-- A `Gep` dimension: `Union[IntConst, NoneConst]` in the source. -/
inductive Dim where
  | intConst (value : Int) : Dim
  | noneConst : Dim
deriving DecidableEq

/-- The `ValueBindingOp` union: the right-hand sides a `let` can carry. -/
inductive Op where
  | binExpr (binop : BinOp) (v1 v2 : Value) : Op
  | alloca (tpe : Ty) (size : Int) : Op
  | load (name : String) : Op
  | store (value : Value) (name : String) : Op
  | gep (tpe : Ty) (name : String) (offsets : List (Value × Dim)) : Op
  | fncall (name : String) (args : List Value) : Op
deriving DecidableEq

/-- The `Terminator` union: `Br`, `Jmp`, `Ret`. -/
inductive Terminator where
  | br (cond : Value) (label1 label2 : String) : Terminator
  | jmp (label : String) : Terminator
  | ret (value : Value) : Terminator
deriving DecidableEq

/-- Model of `ValueBinding`: `let name = op`. -/
structure ValueBinding where
  name : String
  op : Op
deriving DecidableEq

/-- Model of `BasicBlock`: a label, value bindings, and one terminator. -/
structure BasicBlock where
  label : String
  bindings : List ValueBinding
  terminator : Terminator
deriving DecidableEq

/-- Model of `Body`: the list of basic blocks of a function definition. -/
structure Body where
  bbs : List BasicBlock
deriving DecidableEq

/-- Model of `PList`: the parameter list, pairs of parameter identifier and type. -/
structure PList where
  params : List (String × Ty)
deriving DecidableEq

/-- Model of `FunDefn`: a function definition. -/
structure FunDefn where
  name : String
  params : PList
  ret : Ty
  body : Body
deriving DecidableEq

/-- Model of `FunDecl`: an external function declaration. -/
structure FunDecl where
  name : String
  params : PList
  ret : Ty
deriving DecidableEq

/-- A top-level declaration (`Decl` union in the source).  A `GlobalDecl`
carries its name, type, declared size and optional initialiser values. -/
inductive Decl where
  | globalDecl (name : String) (tpe : Ty) (size : Int) (values : List Value) : Decl
  | funDefn (f : FunDefn) : Decl
  | funDecl (d : FunDecl) : Decl
deriving DecidableEq

/-- Runtime values.  The Python interpreter is untyped (`Any`), and the
objects that actually flow through evaluation are: `int`, `bool` (produced
by comparisons), `Ptr`, the `UnitConst` instance, Python `None` (returned by
`Store.eval`, `ValueBinding.eval` and by `dict.get` on a missing key),
`BasicBlock` objects (registered under their label in a frame), and the
function objects stored in the global table. -/
inductive RVal where
  | int (n : Int) : RVal
  | bool (b : Bool) : RVal
  | ptr (addr : Int) : RVal
  | unit : RVal
  | none : RVal
  | block (bb : BasicBlock) : RVal
  | fn (f : FunDefn) : RVal
  | decl (d : FunDecl) : RVal
deriving DecidableEq

/-- Exceptions the interpreter can raise, plus the fuel-exhaustion marker. -/
inductive Err where
  | semanticError (msg : String) : Err
  | zeroDivisionError : Err
  | typeError : Err
  | indexError : Err
  | attributeError : Err
  | eofError : Err
  | outOfFuel : Err
deriving DecidableEq

deriving instance DecidableEq for Except

/-- A frame: the Python per-invocation `dict[str, Any]`.  Represented as an
association list where the most recent insertion is at the head, so a later
insertion under the same key shadows the earlier one, exactly as a `dict`
assignment overwrites. -/
abbrev Frame := List (String × RVal)

/-- The `Environment` class: global table, frame stack (top frame first
here, where the source keeps the top at the end of a Python list), the
linear cell store `stack` with its `capacity` and high-water mark `size`,
plus the process streams: `output` collects the lines printed to stdout and
`input` holds the integers remaining on stdin. -/
structure Environment where
  global_env : List (String × RVal)
  frames : List Frame
  stack : List RVal
  capacity : Int
  size : Int
  output : List String
  input : List Int
deriving DecidableEq

/-- The environment at interpreter start-up: `self.stack = [0]*1024`,
`self.capacity = 1024`, `self.size = 0`, empty tables. -/
def Environment.init (input : List Int) : Environment :=
  { global_env := []
    frames := []
    stack := List.replicate 1024 (.int 0)
    capacity := 1024
    size := 0
    output := []
    input := input }

/-- Model of `push_frame`: append an empty frame. -/
def Environment.push_frame (env : Environment) : Environment :=
  { env with frames := [] :: env.frames }

/-- Model of `pop_frame`: `self.frames.pop()`; popping an empty stack raises
`IndexError`. -/
def Environment.pop_frame (env : Environment) : Except Err Environment :=
  match env.frames with
  | [] => .error .indexError
  | _ :: rest => .ok { env with frames := rest }

/-- Model of `add_global`: insert into the global table, rejecting duplicates. -/
def Environment.add_global (env : Environment) (name : String) (v : RVal) :
    Except Err Environment :=
  match env.global_env.lookup name with
  | some _ => .error (.semanticError ("Global identifier " ++ name ++ " is defined twice."))
  | Option.none => .ok { env with global_env := (name, v) :: env.global_env }

/-- Model of `get_global`: `self.global_env.get(name)`, `none` when absent. -/
def Environment.get_global (env : Environment) (name : String) : Option RVal :=
  env.global_env.lookup name

/-- Model of `add_local`: `self.frames[-1][name] = value`.  Indexing `frames[-1]` on
an empty frame stack raises `IndexError`. -/
def Environment.add_local (env : Environment) (name : String) (v : RVal) :
    Except Err Environment :=
  match env.frames with
  | [] => .error .indexError
  | f :: rest => .ok { env with frames := ((name, v) :: f) :: rest }

/-- Model of `get_local`: `self.frames[-1].get(name)`, `none` when absent. -/
def Environment.get_local (env : Environment) (name : String) :
    Except Err (Option RVal) :=
  match env.frames with
  | [] => .error .indexError
  | f :: _ => .ok (f.lookup name)

/-- Model of `dict.get` with no default returns `None` for a missing key; in the
interpreter that `None` flows on as an ordinary runtime value. -/
def pyFromOption : Option RVal → RVal
  | some v => v
  | Option.none => .none

/-- Model of `name.startswith("@")`: whether the first character is `@`.  Stated on
the underlying character list so that it evaluates inside the kernel. -/
def startsWithAt (name : String) : Bool :=
  match name.data with
  | [] => false
  | c :: _ => decide (c = '@')

/-- Model of `Environment.get`: names beginning with `@` go to the global table, all
others to the top frame.  A name bound in neither place yields the Python
`None` object (no exception is raised for an unbound name). -/
def Environment.get (env : Environment) (name : String) : Except Err RVal :=
  if startsWithAt name then .ok (pyFromOption (env.get_global name))
  else
    match env.get_local name with
    | .error er => .error er
    | .ok o => .ok (pyFromOption o)

/-- Python index normalisation: a negative index counts from the end of
the list. -/
def pyNorm (l : List RVal) (i : Int) : Int :=
  if i < 0 then i + l.length else i

/-- Python list read `l[i]`: a negative index counts from the end; an index
outside `[-len l, len l)` raises `IndexError`. -/
def pyIndex (l : List RVal) (i : Int) : Except Err RVal :=
  if h : 0 ≤ pyNorm l i ∧ pyNorm l i < (l.length : Int) then
    .ok (l.get ⟨(pyNorm l i).toNat, by omega⟩)
  else .error .indexError

/-- Python list write `l[i] = v`, with the same index rule as `pyIndex`. -/
def pySetIndex (l : List RVal) (i : Int) (v : RVal) : Except Err (List RVal) :=
  if 0 ≤ pyNorm l i ∧ pyNorm l i < (l.length : Int) then
    .ok (l.set (pyNorm l i).toNat v)
  else .error .indexError

/-- Model of `Environment.store`: look the name up; a non-`Ptr` target is a
`SemanticError`; otherwise write `self.stack[ptr.addr] = value` with Python
list-index semantics.  No check against the high-water mark `size` is
performed. -/
def Environment.store (env : Environment) (name : String) (v : RVal) :
    Except Err Environment :=
  match env.get name with
  | .error er => .error er
  | .ok (.ptr a) =>
    match pySetIndex env.stack a v with
    | .error er => .error er
    | .ok st => .ok { env with stack := st }
  | .ok _ => .error (.semanticError (name ++ " is not a pointer."))

/-- Model of `Environment.load`: symmetric to `store`, reading `self.stack[ptr.addr]`
with Python list-index semantics and no check against `size`. -/
def Environment.load (env : Environment) (name : String) : Except Err RVal :=
  match env.get name with
  | .error er => .error er
  | .ok (.ptr a) => pyIndex env.stack a
  | .ok _ => .error (.semanticError (name ++ " is not a pointer."))

/-- Model of `Environment.allocate`: grow the backing list in 1024-sized chunks when
needed, reserve `size` cells starting at the old high-water mark, and, when
an initialiser is present, replace the slice `stack[addr:addr+size]` by it
(its length equals `size` whenever this is reached: `GlobalDecl.__init__`
checks that, and `Alloca` passes no initialiser).  Returns `Ptr(addr)`. -/
def Environment.allocate (env : Environment) (size : Int) (init : List RVal) :
    RVal × Environment :=
  let env :=
    if env.size + size > env.capacity then
      let size_lacked := env.size + size - env.capacity
      let size_to_extend := (size_lacked + 1023).fdiv 1024 * 1024
      { env with
        stack := env.stack ++ List.replicate size_to_extend.toNat (.int 0)
        capacity := env.capacity + size_to_extend }
    else env
  let addr := env.size
  let env := { env with size := env.size + size }
  let env :=
    if init ≠ [] then
      { env with
        stack := env.stack.take addr.toNat ++ init ++ env.stack.drop (addr.toNat + init.length) }
    else env
  (.ptr addr, env)

/-- The Python numeric tower as the interpreter meets it: `int` and `bool`
take part in arithmetic (`True` counts as `1`, `False` as `0`); every other
object refuses arithmetic with `TypeError`. -/
def RVal.asNum? : RVal → Option Int
  | .int n => some n
  | .bool b => some (if b then 1 else 0)
  | _ => Option.none

/-- Apply an exact integer operation to two operands, with Python's
`bool`-to-`int` promotion; non-numeric operands raise `TypeError`. -/
def arithE (f : Int → Int → Int) (a b : RVal) : Except Err RVal :=
  match a.asNum?, b.asNum? with
  | some x, some y => .ok (.int (f x y))
  | _, _ => .error .typeError

/-- Python `&`, `|`, `^`: on two `bool`s the result is a `bool`; any other
numeric mix goes through `int` bitwise arithmetic; non-numeric operands
raise `TypeError`. -/
def bitE (fb : Bool → Bool → Bool) (fi : Int → Int → Int) (a b : RVal) :
    Except Err RVal :=
  match a, b with
  | .bool x, .bool y => .ok (.bool (fb x y))
  | _, _ => arithE fi a b

/-- Python `==` as the interpreter meets it: numeric values compare by
value (`True == 1`), `Ptr` and the AST dataclasses compare structurally,
`None == None` and `UnitConst() == UnitConst()` hold, and any remaining
cross-type comparison is `False`.  (For function objects Python compares by
identity; structural equality is used here, which agrees on every
comparison the evaluator can actually perform on equal or unequal
literals.) -/
def pyEq (a b : RVal) : Bool :=
  match a.asNum?, b.asNum? with
  | some x, some y => decide (x = y)
  | _, _ => decide (a = b)

/-- Python ordered comparison (`<`, `<=`, `>`, `>=`): defined on numeric
operands, `TypeError` on any other shape. -/
def cmpE (f : Int → Int → Bool) (a b : RVal) : Except Err RVal :=
  match a.asNum?, b.asNum? with
  | some x, some y => .ok (.bool (f x y))
  | _, _ => .error .typeError

/-- The dispatch of `BinExpr.eval` on two already-evaluated operands.
`add`, `sub`, `mul` are Python's exact unbounded integer operations (no
modular reduction); `div` is `//` (floor division, `Int.fdiv`) and `rem` is
`%` (floor remainder, sign of the divisor, `Int.fmod`), both raising
`ZeroDivisionError` for a zero divisor; comparisons return Python `bool`s. -/
def applyBinop : BinOp → RVal → RVal → Except Err RVal
  | .add, a, b => arithE (· + ·) a b
  | .sub, a, b => arithE (· - ·) a b
  | .mul, a, b => arithE (· * ·) a b
  | .div, a, b =>
    match a.asNum?, b.asNum? with
    | some x, some y =>
      if y = 0 then .error .zeroDivisionError else .ok (.int (Int.fdiv x y))
    | _, _ => .error .typeError
  | .rem, a, b =>
    match a.asNum?, b.asNum? with
    | some x, some y =>
      if y = 0 then .error .zeroDivisionError else .ok (.int (Int.fmod x y))
    | _, _ => .error .typeError
  | .and, a, b => bitE Bool.and Int.land a b
  | .or, a, b => bitE Bool.or Int.lor a b
  | .xor, a, b => bitE Bool.xor Int.xor a b
  | .eq, a, b => .ok (.bool (pyEq a b))
  | .ne, a, b => .ok (.bool (!pyEq a b))
  | .lt, a, b => cmpE (fun x y => decide (x < y)) a b
  | .le, a, b => cmpE (fun x y => decide (x ≤ y)) a b
  | .gt, a, b => cmpE (fun x y => decide (x > y)) a b
  | .ge, a, b => cmpE (fun x y => decide (x ≥ y)) a b

/-- Evaluation of a `Value`: `IntConst.eval` returns its integer,
`NoneConst.eval` returns the integer `1`, `UnitConst.eval` returns the
`UnitConst` instance itself, and `Ident.eval` is `env.get`. -/
def Value.eval (v : Value) (env : Environment) : Except Err RVal :=
  match v with
  | .intConst n => .ok (.int n)
  | .noneConst => .ok (.int 1)
  | .unitConst => .ok .unit
  | .ident name => env.get name

/-- Evaluate a list of values left to right (list comprehension order). -/
def evalValues (env : Environment) : List Value → Except Err (List RVal)
  | [] => .ok []
  | v :: rest =>
    match v.eval env with
    | .error er => .error er
    | .ok rv =>
      match evalValues env rest with
      | .error er => .error er
      | .ok rvs => .ok (rv :: rvs)

/-- Model of `NoneConst.eval` returns `1`, so a `none` dimension contributes a
multiplication by `1`; an integer-constant dimension contributes itself. -/
def Dim.eval : Dim → Int
  | .intConst n => n
  | .noneConst => 1

/-- The loop of `Gep.eval`: `addr = addr * dim.eval() + idx.eval()` over
the offset list in textual order.  An index that does not evaluate to a
number makes the addition a `TypeError`. -/
def gepFold (env : Environment) (addr : Int) :
    List (Value × Dim) → Except Err Int
  | [] => .ok addr
  | (idx, dim) :: rest =>
    match idx.eval env with
    | .error er => .error er
    | .ok v =>
      match v.asNum? with
      | some i => gepFold env (addr * dim.eval + i) rest
      | Option.none => .error .typeError

/-- Model of `Gep.eval`: read `.addr` from the value the name resolves to (only a
`Ptr` has that attribute; anything else raises `AttributeError`), run the
offset loop, and wrap the result back into a `Ptr`. -/
def Gep.eval (env : Environment) (name : String)
    (offsets : List (Value × Dim)) : Except Err RVal :=
  match env.get name with
  | .error er => .error er
  | .ok (.ptr a) =>
    match gepFold env a offsets with
    | .error er => .error er
    | .ok addr => .ok (.ptr addr)
  | .ok _ => .error .attributeError

/-- Bind parameter names to already-evaluated argument values, in order,
into the top frame (the body of the `zip` loop in `PList.eval`). -/
def bindParams (env : Environment) :
    List ((String × Ty) × RVal) → Except Err Environment
  | [] => .ok env
  | ((name, _), v) :: rest =>
    match env.add_local name v with
    | .error er => .error er
    | .ok env' => bindParams env' rest

/-- Model of `PList.eval`: evaluate all arguments in the caller's frame, push a new
frame, then bind parameters to values positionally via `zip` — which stops
at the shorter list, so surplus arguments are dropped and surplus
parameters stay unbound.  No arity check is performed. -/
def PList.eval (p : PList) (env : Environment) (values : List Value) :
    Except Err Environment :=
  match evalValues env values with
  | .error er => .error er
  | .ok vals => bindParams env.push_frame (p.params.zip vals)

/-- The `for bb in self.body.bbs: env.add_local(bb.label, bb)` loop of
`FunDefn.eval`: every basic block is registered under its label in the same
frame table that `let` bindings use. -/
def registerLabels (env : Environment) :
    List BasicBlock → Except Err Environment
  | [] => .ok env
  | bb :: rest =>
    match env.add_local bb.label (.block bb) with
    | .error er => .error er
    | .ok env' => registerLabels env' rest

/-- Load-time effect of a `GlobalDecl`: check that a non-empty initialiser
matches the declared size, evaluate the initialiser values, allocate, and
bind the name to the returned pointer. -/
def linkDecl (env : Environment) : Decl → Except Err Environment
  | .globalDecl name _ size values =>
    if values ≠ [] ∧ (values.length : Int) ≠ size then
      .error (.semanticError ("Global array " ++ name ++ " has wrong number of values."))
    else
      match evalValues env values with
      | .error er => .error er
      | .ok vals =>
        match env.allocate size vals with
        | (p, env') => env'.add_global name p
  | .funDefn f => env.add_global f.name (.fn f)
  | .funDecl d => env.add_global d.name (.decl d)

/-- Process the top-level declarations in textual order (the side effects
of the dataclass constructors as the parse tree is built). -/
def linkProgram (env : Environment) : List Decl → Except Err Environment
  | [] => .ok env
  | d :: rest =>
    match linkDecl env d with
    | .error er => .error er
    | .ok env' => linkProgram env' rest

/-- Result of a stateful evaluation step: the produced value together with
the environment, or a raised exception together with the environment at the
moment it was raised (stdout printed so far survives an exception). -/
inductive ExecRes where
  | ok (v : RVal) (env : Environment) : ExecRes
  | err (er : Err) (env : Environment) : ExecRes
deriving DecidableEq

/-- Chain a pure `Except` step into a stateful one. -/
def onOk {α : Type} (env : Environment) :
    Except Err α → (α → ExecRes) → ExecRes
  | .error er, _ => .err er env
  | .ok a, k => k a

/-- Python truthiness (`if cond:`): `0`, `False` and `None` are false;
every other value the interpreter can produce is true (instances of
classes without `__bool__`/`__len__`, such as `Ptr` or `UnitConst`, are
true). -/
def pyTruthy : RVal → Bool
  | .int n => decide (n ≠ 0)
  | .bool b => b
  | .none => false
  | _ => true

/-- Python `str()` of the runtime values the interpreter prints.  Integers
and `bool`s print as in Python; `Ptr` uses `IRNode.__str__`; `UnitConst()`
is its dataclass repr.  The pretty-printer for whole AST nodes (blocks and
functions) is not modelled — no claim exercises printing those. -/
def pyStr : RVal → String
  | .int n => toString n
  | .bool b => if b then "True" else "False"
  | .none => "None"
  | .unit => "UnitConst()"
  | .ptr a => "Ptr (" ++ toString a ++ ") "
  | .block _ => "<BasicBlock>"
  | .fn _ => "<FunDefn>"
  | .decl _ => "<FunDecl>"

mutual

/-- Evaluation of one `ValueBindingOp` (the `eval` of `BinExpr`, `Alloca`,
`Load`, `Store`, `Gep` or `Fncall`).  `Store.eval` falls off the end of the
Python function and therefore returns `None`. -/
def Op.eval : Nat → Environment → Op → ExecRes
  | 0, env, _ => .err .outOfFuel env
  | _ + 1, env, .binExpr b v1 v2 =>
    onOk env (v1.eval env) fun a =>
      onOk env (v2.eval env) fun c =>
        onOk env (applyBinop b a c) fun r => .ok r env
  | _ + 1, env, .alloca _ size =>
    match env.allocate size [] with
    | (p, env') => .ok p env'
  | _ + 1, env, .load name => onOk env (env.load name) fun v => .ok v env
  | _ + 1, env, .store v name =>
    onOk env (v.eval env) fun rv =>
      onOk env (env.store name rv) fun env' => .ok .none env'
  | _ + 1, env, .gep _ name offsets =>
    onOk env (Gep.eval env name offsets) fun p => .ok p env
  | fuel + 1, env, .fncall name args => Fncall.eval fuel env name args

/-- Model of `Fncall.eval`: the names `@write` and `@read` are intercepted before
the global table is consulted; any other name is looked up among the
globals and must be a `FunDefn` or `FunDecl`, else `SemanticError`.
`@write` prints `args[0].eval()` (an empty argument list makes `args[0]`
an `IndexError`) and returns `0`; `@read` parses one integer from stdin
(end of input raises `EOFError` inside `input()`).  Calling a `FunDecl`
reaches `fun.eval(...)` on an object with no `eval` method:
`AttributeError`. -/
def Fncall.eval : Nat → Environment → String → List Value → ExecRes
  | 0, env, _, _ => .err .outOfFuel env
  | fuel + 1, env, name, args =>
    if name = "@write" then
      match args with
      | [] => .err .indexError env
      | a :: _ =>
        onOk env (a.eval env) fun v =>
          .ok (.int 0) { env with output := env.output ++ [pyStr v] }
    else if name = "@read" then
      match env.input with
      | [] => .err .eofError env
      | n :: rest => .ok (.int n) { env with input := rest }
    else
      match env.get_global name with
      | some (.fn f) => FunDefn.eval fuel env f args
      | some (.decl _) => .err .attributeError env
      | _ => .err (.semanticError (name ++ " is not a function.")) env

/-- Model of `FunDefn.eval`: bind the arguments through `PList.eval` (which pushes
the new frame), register every basic block of the body under its label in
that same frame, run the body, pop the frame and hand the return value
back. -/
def FunDefn.eval : Nat → Environment → FunDefn → List Value → ExecRes
  | 0, env, _, _ => .err .outOfFuel env
  | fuel + 1, env, f, args =>
    onOk env (f.params.eval env args) fun env1 =>
      onOk env1 (registerLabels env1 f.body.bbs) fun env2 =>
        match Body.eval fuel env2 f.body with
        | .err er env3 => .err er env3
        | .ok rv env3 =>
          onOk env3 env3.pop_frame fun env4 => .ok rv env4

/-- Model of `Body.eval`: run the first basic block (`self.bbs[0]`; an empty body
makes that an `IndexError`). -/
def Body.eval : Nat → Environment → Body → ExecRes
  | 0, env, _ => .err .outOfFuel env
  | fuel + 1, env, body =>
    match body.bbs with
    | [] => .err .indexError env
    | bb :: _ => BasicBlock.eval fuel env bb

/-- Model of `BasicBlock.eval`: run the bindings in order, then the terminator. -/
def BasicBlock.eval : Nat → Environment → BasicBlock → ExecRes
  | 0, env, _ => .err .outOfFuel env
  | fuel + 1, env, bb =>
    match runBindings fuel env bb.bindings with
    | .err er env' => .err er env'
    | .ok _ env' => Terminator.eval fuel env' bb.terminator

/-- The bindings loop of `BasicBlock.eval`: each `ValueBinding.eval`
evaluates its op and inserts the result into the current frame under the
bound name (overwriting any existing entry, including a block label). -/
def runBindings : Nat → Environment → List ValueBinding → ExecRes
  | 0, env, _ => .err .outOfFuel env
  | _ + 1, env, [] => .ok .none env
  | fuel + 1, env, b :: rest =>
    match Op.eval fuel env b.op with
    | .err er env' => .err er env'
    | .ok v env' =>
      onOk env' (env'.add_local b.name v) fun env'' =>
        runBindings fuel env'' rest

/-- Terminator evaluation.  `Ret.eval` returns the evaluated value.
`Jmp.eval` and `Br.eval` resolve the chosen label in the current frame with
`env.get` and call `.eval()` on whatever object that lookup produced. -/
def Terminator.eval : Nat → Environment → Terminator → ExecRes
  | 0, env, _ => .err .outOfFuel env
  | _ + 1, env, .ret v => onOk env (v.eval env) fun rv => .ok rv env
  | fuel + 1, env, .jmp label =>
    onOk env (env.get label) fun t => dynEval fuel env t
  | fuel + 1, env, .br cond l1 l2 =>
    onOk env (cond.eval env) fun c =>
      onOk env (env.get (if pyTruthy c then l1 else l2)) fun t =>
        dynEval fuel env t

/-- Python method dispatch for the `.eval()` call a branch performs on the
object its target label resolved to: a `BasicBlock` runs; the `UnitConst`
instance returns itself; a `FunDefn` would need its `args` parameter, so
the zero-argument call raises `TypeError`; every other object (`int`,
`bool`, `Ptr`, `None`, `FunDecl`) has no `eval` method and raises
`AttributeError`. -/
def dynEval : Nat → Environment → RVal → ExecRes
  | 0, env, _ => .err .outOfFuel env
  | fuel + 1, env, .block bb => BasicBlock.eval fuel env bb
  | _ + 1, env, .unit => .ok .unit env
  | _ + 1, env, .fn _ => .err .typeError env
  | _ + 1, env, _ => .err .attributeError env

end

/-- The top-level `eval()`: `@main` must be bound to a `FunDefn` in the
global table, and is invoked with no arguments. -/
def interpret (fuel : Nat) (env : Environment) : ExecRes :=
  match env.get_global "@main" with
  | some (.fn f) => FunDefn.eval fuel env f []
  | _ => .err (.semanticError "Main function is not defined.") env

/-- The exit status produced by the trailing `exit(return_value)`:
`SystemExit` with an `int` payload exits with that value truncated to a
byte by the operating system; a `None` payload exits `0`; any other
payload (such as the `UnitConst` instance) is printed to stderr and the
status is `1`. -/
def pyExitCode : RVal → Nat
  | .int n => (n % 256).toNat
  | .bool b => if b then 1 else 0
  | .none => 0
  | _ => 1

/-- The `Exit with code ...` summary line the driver prints to stdout
before exiting, including the ANSI colouring (green for a value equal to
`0`, red otherwise). -/
def exitLine (v : RVal) : String :=
  let s := pyStr v
  let colored :=
    if pyEq v (.int 0) then "\x1b[1;32m" ++ s ++ "\x1b[0m"
    else "\x1b[1;31m" ++ s ++ "\x1b[0m"
  "Exit with code " ++ colored ++ "."

/-- The `__main__` driver on an already-parsed program: link the
declarations, run `eval()`, print the summary line, and exit.  The result
is the final stdout (as a list of printed lines) and the process exit
status; an uncaught exception keeps the stdout produced so far and exits
with status 1. -/
def runProgram (fuel : Nat) (decls : List Decl) (input : List Int) :
    List String × Nat :=
  match linkProgram (Environment.init input) decls with
  | .error _ => ([], 1)
  | .ok env =>
    match interpret fuel env with
    | .err _ env' => (env'.output, 1)
    | .ok rv env' => (env'.output ++ [exitLine rv], pyExitCode rv)

/-- Projection of an execution result onto the produced value. -/
def ExecRes.val? : ExecRes → Option RVal
  | .ok v _ => some v
  | .err _ _ => Option.none

/-- The step the spec describes for one `offset` dimension (claim C7):
multiply-and-add for an integer-constant bound, plain addition for a
`none` bound. -/
def gepSpecStep (a i : Int) : Dim → Int
  | .intConst d => a * d + i
  | .noneConst => a + i

/-- Modelled from the spec for comparison (claim C3): reduction of an
integer modulo `2^32` into the signed 32-bit range `[-2^31, 2^31)`.  The
interpreter itself performs no such reduction. -/
def signedWrap32 (n : Int) : Int := (n + 2 ^ 31) % 2 ^ 32 - 2 ^ 31

/-- An environment whose only frame is the given one; the concrete local
environments used below are all of this shape. -/
def mkLocalEnv (f : Frame) : Environment :=
  { Environment.init [] with frames := [f] }

/-- Push a frame binding `%p` to the given value — the state in which
`load %p` runs right after `let %p = offset ...`. -/
def bindPtr (env : Environment) (p : RVal) : Environment :=
  match (env.push_frame).add_local "%p" p with
  | .ok e => e
  | .error _ => env.push_frame

/-- The program `fn @main() -> () { %0: ret () }`. -/
def unitMain : FunDefn :=
  { name := "@main", params := ⟨[]⟩, ret := .unit
    body := ⟨[{ label := "%0", bindings := [], terminator := .ret .unitConst }]⟩ }

/-- A `@main` that returns the integer `5`. -/
def intMain : FunDefn :=
  { name := "@main", params := ⟨[]⟩, ret := .i32
    body := ⟨[{ label := "%0", bindings := [], terminator := .ret (.intConst 5) }]⟩ }

/-- The program `fn @main() -> i32 { %0: let %x = div 1, 0  ret 0 }`. -/
def divZeroMain : FunDefn :=
  { name := "@main", params := ⟨[]⟩, ret := .i32
    body := ⟨[{ label := "%0"
                bindings := [⟨"%x", .binExpr .div (.intConst 1) (.intConst 0)⟩]
                terminator := .ret (.intConst 0) }]⟩ }

/-- Declarations for claim C1: a one-cell region `@z` followed by
`@a : region i32, 2 = [10, 20]`, so that `@a` sits at address 1. -/
def c1Decls : List Decl :=
  [ .globalDecl "@z" .i32 1 []
  , .globalDecl "@a" .i32 2 [.intConst 10, .intConst 20] ]

/-- The environment after loading `c1Decls`. -/
def c1Env : Environment :=
  match linkProgram (Environment.init []) c1Decls with
  | .ok e => e
  | .error _ => Environment.init []

/-- Model of `c1Env` with `%p` bound to the pointer `offset i32, @a, [0 < 2]`
produced, ready for `load %p`. -/
def c1EnvP : Environment :=
  match Gep.eval c1Env "@a" [(.intConst 0, .intConst 2)] with
  | .ok p => bindPtr c1Env p
  | .error _ => c1Env.push_frame

/-- The environment after loading the single declaration
`@a : region i32, 2 = [10, 20]` (claim C1's witness): here `@a` is the
first declaration, so its region starts at address 0. -/
def c1GEnv : Environment :=
  match linkProgram (Environment.init [])
      [.globalDecl "@a" .i32 2 [.intConst 10, .intConst 20]] with
  | .ok e => e
  | .error _ => Environment.init []

/-- An environment with one allocated cell (`size = 1`) and locals `%p`,
`%q` holding pointers to addresses `5` and `-1`, both outside the
allocated range (claim C5). -/
def c5Env : Environment :=
  { ((Environment.init []).push_frame.allocate 1 []).2 with
    frames := [[("%p", .ptr 5), ("%q", .ptr (-1))]] }

/-- An environment with one empty frame and no globals (claim C6). -/
def c6Env : Environment := mkLocalEnv []

/-- A frame binding `%p` to a pointer at address 3 (claim C7's witness). -/
def c7Env : Environment := mkLocalEnv [("%p", .ptr 3)]

/-- A two-parameter parameter list (claim C8's witness). -/
def c8Params : PList := ⟨[("#a", .i32), ("#b", .i32)]⟩

/-- A trivial helper function `fn @u() -> () { %0: ret () }`. -/
def unitFn : FunDefn :=
  { name := "@u", params := ⟨[]⟩, ret := .unit
    body := ⟨[{ label := "%0", bindings := [], terminator := .ret .unitConst }]⟩ }

/-- An environment in which the program has defined its own `@write` and
`@read` functions and one integer is waiting on stdin (claim C9). -/
def c9Env : Environment :=
  { mkLocalEnv [] with
    global_env := [("@write", .fn unitFn), ("@read", .fn unitFn)]
    input := [7] }

/-- A `@main` whose entry block binds `%t` — the label of its second basic
block — to the result of calling `@u`, and then jumps to `%t` (claim
C10). -/
def shadowMain : FunDefn :=
  { name := "@main", params := ⟨[]⟩, ret := .i32
    body := ⟨[ { label := "%entry"
                 bindings := [⟨"%t", .fncall "@u" []⟩]
                 terminator := .jmp "%t" }
             , { label := "%t", bindings := [], terminator := .ret (.intConst 42) } ]⟩ }

/-- The environment after loading `@u` and the shadowing `@main`. -/
def c10LinkedEnv : Environment :=
  match linkProgram (Environment.init []) [.funDefn unitFn, .funDefn shadowMain] with
  | .ok e => e
  | .error _ => Environment.init []

/-- A block used as the overwritten label value in claim C10's witness. -/
def c10Block : BasicBlock := { label := "%t", bindings := [], terminator := .ret .unitConst }

/-- Model of `mkLocalEnv []` after registering `c10Block` under `%t`. -/
def c10Env1 : Environment := mkLocalEnv [("%t", .block c10Block)]

/-- Model of `c10Env1` after a `let %t = ...` bound the integer `5` over the label. -/
def c10Env2 : Environment := mkLocalEnv [("%t", .int 5), ("%t", .block c10Block)]

/-- The environment after loading the single declaration of `intMain`. -/
def c2LinkedEnv : Environment :=
  match linkProgram (Environment.init []) [.funDefn intMain] with
  | .ok e => e
  | .error _ => Environment.init []

/-- The environment state after `intMain` has returned. -/
def c2FinalEnv : Environment :=
  match interpret 10 c2LinkedEnv with
  | .ok _ e => e
  | .err _ e => e

/-- An environment with one local binding and one global binding (claim
C6's witness). -/
def c6EnvW : Environment :=
  { mkLocalEnv [("%a", .int 3)] with global_env := [("@g", .ptr 0)] }

/-- Claim C3, counterexample: evaluating `add 2000000000, 2000000000`
produces the exact sum `4000000000`, which is not in the signed 32-bit
range and differs from its claimed wrapped value `-294967296`: the
interpreter performs no modular reduction. -/
theorem c3_counterexample :
    applyBinop .add (.int 2000000000) (.int 2000000000) = .ok (.int 4000000000) ∧
    signedWrap32 4000000000 ≠ 4000000000 ∧
    ¬ (-(2 ^ 31) ≤ (4000000000 : Int) ∧ (4000000000 : Int) < 2 ^ 31) := by
  refine ⟨rfl, by decide, by decide⟩

/-- Claim C3 as amended: for `Int` operands, `add`, `sub` and `mul` compute
exact arbitrary-precision integer arithmetic (Python's unbounded `int`);
the results are not reduced modulo `2^32`. -/
theorem c3_exact_arithmetic (a b : Int) :
    applyBinop .add (.int a) (.int b) = .ok (.int (a + b)) ∧
    applyBinop .sub (.int a) (.int b) = .ok (.int (a - b)) ∧
    applyBinop .mul (.int a) (.int b) = .ok (.int (a * b)) :=
  ⟨rfl, rfl, rfl⟩

/-- Claim C4, counterexample: `div -1, 2` evaluates to `-1` (floor), where
truncation toward zero gives `0`; `rem -1, 2` evaluates to `1` (sign of
the divisor), where a dividend-signed remainder gives `-1`. -/
theorem c4_counterexample :
    applyBinop .div (.int (-1)) (.int 2) = .ok (.int (-1)) ∧ (-1 : Int) ≠ 0 ∧
    applyBinop .rem (.int (-1)) (.int 2) = .ok (.int 1) ∧ (1 : Int) ≠ -1 := by
  refine ⟨by decide, by decide, by decide, by decide⟩

/-- Claim C4 as amended: for `Int` operands with a non-zero divisor, `div`
is Python floor division (rounds toward negative infinity) and `rem` is
the matching floor remainder (sign of the divisor); a zero divisor raises
`ZeroDivisionError`, and the program whose `@main` runs `let %x = div 1, 0`
aborts with exit status 1 having printed nothing. -/
theorem c4_floor_division (a b : Int) (h : b ≠ 0) :
    applyBinop .div (.int a) (.int b) = .ok (.int (Int.fdiv a b)) ∧
    applyBinop .rem (.int a) (.int b) = .ok (.int (Int.fmod a b)) ∧
    applyBinop .div (.int a) (.int 0) = .error .zeroDivisionError ∧
    applyBinop .rem (.int a) (.int 0) = .error .zeroDivisionError ∧
    runProgram 10 [.funDefn divZeroMain] [] = ([], 1) := by
  refine ⟨?_, ?_, rfl, rfl, by decide⟩
  · simp [applyBinop, RVal.asNum?, h]
  · simp [applyBinop, RVal.asNum?, h]

/-- Claim C4 witness: the amended statement at `a = 7`, `b = -3`
(`7 // -3 = -3` and `7 % -3 = -2` in Python). -/
theorem c4_floor_division_witness :
    applyBinop .div (.int 7) (.int (-3)) = .ok (.int (Int.fdiv 7 (-3))) ∧
    applyBinop .rem (.int 7) (.int (-3)) = .ok (.int (Int.fmod 7 (-3))) ∧
    applyBinop .div (.int 7) (.int 0) = .error .zeroDivisionError ∧
    applyBinop .rem (.int 7) (.int 0) = .error .zeroDivisionError ∧
    runProgram 10 [.funDefn divZeroMain] [] = ([], 1) :=
  c4_floor_division 7 (-3) (by decide)

/-- Helper: `pyIndex` raises `IndexError` exactly on the indices outside
the backing list. -/
theorem pyIndex_err_iff (l : List RVal) (i : Int) :
    pyIndex l i = .error .indexError ↔
      i < -(l.length : Int) ∨ (l.length : Int) ≤ i := by
  have hcond : (0 ≤ pyNorm l i ∧ pyNorm l i < (l.length : Int)) ↔
      ¬ (i < -(l.length : Int) ∨ (l.length : Int) ≤ i) := by
    unfold pyNorm; split <;> omega
  unfold pyIndex
  split
  · rename_i h
    constructor
    · intro hok; cases hok
    · intro hout; exact absurd (hcond.mp h) (not_not_intro hout)
  · rename_i h
    simp only [true_iff]
    by_contra hout
    exact h (hcond.mpr hout)

/-- Helper: `pySetIndex` raises `IndexError` exactly on the indices outside
the backing list. -/
theorem pySetIndex_err_iff (l : List RVal) (i : Int) (v : RVal) :
    pySetIndex l i v = .error .indexError ↔
      i < -(l.length : Int) ∨ (l.length : Int) ≤ i := by
  have hcond : (0 ≤ pyNorm l i ∧ pyNorm l i < (l.length : Int)) ↔
      ¬ (i < -(l.length : Int) ∨ (l.length : Int) ≤ i) := by
    unfold pyNorm; split <;> omega
  unfold pySetIndex
  split
  · rename_i h
    constructor
    · intro hok; cases hok
    · intro hout; exact absurd (hcond.mp h) (not_not_intro hout)
  · rename_i h
    simp only [true_iff]
    by_contra hout
    exact h (hcond.mpr hout)

set_option maxRecDepth 40000 in
/-- Claim C5, counterexample: in an environment whose allocated
high-water mark is one single cell (`size = 1`), loading through pointers
to addresses `5` and `-1` — both outside the allocated range `[0, 1)` —
silently returns cell contents, and storing through address `5` silently
succeeds; none of them aborts as the claim requires. -/
theorem c5_counterexample :
    c5Env.size = 1 ∧
    Environment.load c5Env "%p" = .ok (.int 0) ∧
    Environment.load c5Env "%q" = .ok (.int 0) ∧
    (Environment.store c5Env "%p" (.int 9)).isOk = true := by
  refine ⟨rfl, by decide, by decide, by decide⟩

/-- Claim C5 as amended: a `load` or `store` through a pointer is checked
only against the backing list of the cell store, never against the
allocated high-water mark `size`: it raises `IndexError` exactly when the
address falls outside `[-capacity, capacity)`, so addresses in
`[size, capacity)` silently access cells beyond the high-water mark and
negative addresses in `[-capacity, -1]` silently access cells counted from
the end of the store. -/
theorem c5_unchecked_bounds (env : Environment) (name : String) (a : Int)
    (v : RVal) (h : env.get name = .ok (.ptr a)) :
    (Environment.load env name = .error .indexError ↔
      a < -(env.stack.length : Int) ∨ (env.stack.length : Int) ≤ a) ∧
    (Environment.store env name v = .error .indexError ↔
      a < -(env.stack.length : Int) ∨ (env.stack.length : Int) ≤ a) := by
  constructor
  · unfold Environment.load
    rw [h]
    exact pyIndex_err_iff env.stack a
  · unfold Environment.store
    rw [h]
    have hmatch : (match pySetIndex env.stack a v with
        | .error er => (.error er : Except Err Environment)
        | .ok st => .ok { env with stack := st }) = .error .indexError ↔
        pySetIndex env.stack a v = .error .indexError := by
      cases hs : pySetIndex env.stack a v with
      | ok st => simp [hs]
      | error er => simp [hs]
    rw [hmatch, pySetIndex_err_iff]

set_option maxRecDepth 40000 in
/-- Claim C5 witness: the amended statement at the concrete environment
`c5Env`, whose cell store holds 1024 cells, through the pointer `%p ↦ 5`. -/
theorem c5_unchecked_bounds_witness :
    (Environment.load c5Env "%p" = .error .indexError ↔
      (5 : Int) < -(c5Env.stack.length : Int) ∨ (c5Env.stack.length : Int) ≤ (5 : Int)) ∧
    (Environment.store c5Env "%p" (.int 9) = .error .indexError ↔
      (5 : Int) < -(c5Env.stack.length : Int) ∨ (c5Env.stack.length : Int) ≤ (5 : Int)) :=
  c5_unchecked_bounds c5Env "%p" 5 (.int 9) (by decide)

/-- Claim C6, counterexample: looking up the unbound local `%x` and the
unbound global `@y` does not fail with any error — both lookups succeed
and yield the Python `None` placeholder as an ordinary value. -/
theorem c6_counterexample :
    Environment.get c6Env "%x" = .ok .none ∧
    Environment.get c6Env "@y" = .ok .none := by
  exact ⟨by decide, by decide⟩

/-- Claim C6 as amended: a name beginning with `@` is resolved in the
global table and any other name in the top frame, but a name bound in
neither place yields the Python `None` value rather than failing with an
`UnboundIdentifier` error. -/
theorem c6_lookup_routing (env : Environment) (name : String) (f : Frame)
    (fs : List Frame) (hf : env.frames = f :: fs) :
    (startsWithAt name = true →
      Environment.get env name = .ok (pyFromOption (env.get_global name))) ∧
    (startsWithAt name = false →
      Environment.get env name = .ok (pyFromOption (f.lookup name))) ∧
    (startsWithAt name = true → env.get_global name = Option.none →
      Environment.get env name = .ok .none) ∧
    (startsWithAt name = false → f.lookup name = Option.none →
      Environment.get env name = .ok .none) := by
  have hlocal : startsWithAt name = false →
      Environment.get env name = .ok (pyFromOption (f.lookup name)) := by
    intro hb
    unfold Environment.get Environment.get_local
    rw [hb, hf]
    simp
  refine ⟨?_, hlocal, ?_, ?_⟩
  · intro hb
    unfold Environment.get
    rw [hb]
    simp
  · intro hb hnone
    unfold Environment.get
    rw [hb, hnone]
    simp [pyFromOption]
  · intro hb hnone
    rw [hlocal hb, hnone]
    rfl

/-- Claim C6 witness: the amended statement at the environment `c6EnvW`,
whose single frame binds `%a` to `3`. -/
theorem c6_lookup_routing_witness :
    c6EnvW.frames = [("%a", RVal.int 3)] :: [] ∧
    ((startsWithAt "%a" = true →
      Environment.get c6EnvW "%a" = .ok (pyFromOption (c6EnvW.get_global "%a"))) ∧
    (startsWithAt "%a" = false →
      Environment.get c6EnvW "%a" = .ok (pyFromOption ([("%a", RVal.int 3)].lookup "%a"))) ∧
    (startsWithAt "%a" = true → c6EnvW.get_global "%a" = Option.none →
      Environment.get c6EnvW "%a" = .ok .none) ∧
    (startsWithAt "%a" = false → [("%a", RVal.int 3)].lookup "%a" = Option.none →
      Environment.get c6EnvW "%a" = .ok .none)) :=
  ⟨rfl, c6_lookup_routing c6EnvW "%a" [("%a", RVal.int 3)] [] rfl⟩

/-- Helper: one step of the `Gep.eval` loop agrees with the spec's
case split, since a `none` dimension evaluates to `1`. -/
theorem gepStep_eq_spec (a i : Int) (d : Dim) :
    a * d.eval + i = gepSpecStep a i d := by
  cases d <;> simp [Dim.eval, gepSpecStep]

/-- Helper: the `Gep.eval` loop over offsets whose indices evaluate to the
given integers computes the spec's fold. -/
theorem gepFold_spec (env : Environment) (offsets : List (Value × Dim))
    (ints : List Int)
    (h : List.Forall₂
      (fun (p : Value × Dim) (i : Int) => p.1.eval env = .ok (.int i))
      offsets ints) :
    ∀ a : Int,
      gepFold env a offsets =
        .ok ((List.zip ints (offsets.map Prod.snd)).foldl
          (fun acc q => gepSpecStep acc q.1 q.2) a) := by
  induction h with
  | nil => intro a; simp [gepFold]
  | cons h1 h2 ih =>
    rename_i p i offs is'
    intro a
    obtain ⟨v, d⟩ := p
    simp only [gepFold, h1, RVal.asNum?]
    rw [gepStep_eq_spec a i d]
    simpa using ih (gepSpecStep a i d)

/-- Claim C7, confirmed: `offset T, %p, [i1 < d1], ..., [in < dn]` starts
from the address of the pointer `%p` resolves to and, in textual order,
performs `a := a * dk + ik` for an integer-constant bound and `a := a + ik`
for a `none` bound, returning `Ptr(a)`. -/
theorem c7_gep_semantics (env : Environment) (name : String)
    (offsets : List (Value × Dim)) (a : Int) (ints : List Int)
    (hget : env.get name = .ok (.ptr a))
    (hidx : List.Forall₂
      (fun (p : Value × Dim) (i : Int) => p.1.eval env = .ok (.int i))
      offsets ints) :
    Gep.eval env name offsets =
      .ok (.ptr ((List.zip ints (offsets.map Prod.snd)).foldl
        (fun acc q => gepSpecStep acc q.1 q.2) a)) := by
  unfold Gep.eval
  rw [hget]
  show (match gepFold env a offsets with
    | .error er => (.error er : Except Err RVal)
    | .ok addr => .ok (.ptr addr)) = _
  rw [gepFold_spec env offsets ints hidx a]

/-- Claim C7 witness: `offset i32, %p, [2 < 3], [4 < none]` on `%p ↦ Ptr 3`
yields `Ptr ((3*3+2)+4) = Ptr 15`. -/
theorem c7_gep_semantics_witness :
    Environment.get c7Env "%p" = .ok (.ptr 3) ∧
    Gep.eval c7Env "%p" [(.intConst 2, .intConst 3), (.intConst 4, .noneConst)] =
      .ok (.ptr 15) := by
  have hidx : List.Forall₂
      (fun (p : Value × Dim) (i : Int) => p.1.eval c7Env = .ok (.int i))
      [(.intConst 2, .intConst 3), (.intConst 4, .noneConst)] [2, 4] :=
    List.Forall₂.cons rfl (List.Forall₂.cons rfl List.Forall₂.nil)
  have h := c7_gep_semantics c7Env "%p"
    [(.intConst 2, .intConst 3), (.intConst 4, .noneConst)] 3 [2, 4] (by decide) hidx
  exact ⟨by decide, h.trans (by decide)⟩

/-- Helper: lookup in an appended association list tries the left part
first. -/
theorem frame_lookup_append (l1 l2 : Frame) (n : String) :
    (l1 ++ l2).lookup n =
      match l1.lookup n with
      | some v => some v
      | Option.none => l2.lookup n := by
  induction l1 with
  | nil => simp [List.lookup]
  | cons p rest ih =>
    obtain ⟨k, v⟩ := p
    cases hnk : (n == k) with
    | true => simp [List.lookup, hnk]
    | false => simp [List.lookup, hnk, ih]

/-- Helper: lookup misses when the key is not among the first
components. -/
theorem frame_lookup_eq_none (l : Frame) (n : String)
    (h : n ∉ l.map Prod.fst) : l.lookup n = Option.none := by
  induction l with
  | nil => simp [List.lookup]
  | cons p rest ih =>
    obtain ⟨k, v⟩ := p
    simp only [List.map_cons, List.mem_cons] at h
    push_neg at h
    have hnk : (n == k) = false := beq_eq_false_iff_ne.mpr h.1
    simp [List.lookup, hnk, ih h.2]

/-- Helper: the keys of a zipped-and-projected parameter frame come from
the parameter names. -/
theorem zip_keys_subset (ps : List (String × Ty)) :
    ∀ (vs : List RVal) (n : String),
      n ∈ ((ps.zip vs).map fun q => (q.1.1, q.2)).map Prod.fst →
      n ∈ ps.map Prod.fst := by
  induction ps with
  | nil => intro vs n h; simp at h
  | cons p ps' ih =>
    intro vs n h
    cases vs with
    | nil => simp at h
    | cons v vs' =>
      obtain ⟨m, t⟩ := p
      simp only [List.zip_cons_cons, List.map_cons, List.mem_cons] at h
      rcases h with h | h
      · simp [h]
      · simp only [List.map_cons, List.mem_cons]
        exact Or.inr (ih vs' n h)

/-- Helper: `bindParams` (the `zip` loop of `PList.eval`) succeeds and
produces exactly the frame of zipped pairs, newest first, on top of the
previous contents of the top frame. -/
theorem bindParams_ok (l : List ((String × Ty) × RVal)) :
    ∀ (env : Environment) (f : Frame) (fs : List Frame),
      env.frames = f :: fs →
      bindParams env l =
        .ok { env with frames :=
          ((((l.map fun q => (q.1.1, q.2)).reverse) ++ f) : Frame) :: fs } := by
  induction l with
  | nil =>
    intro env f fs hf
    simp only [bindParams, List.map_nil, List.reverse_nil, List.nil_append]
    rw [show ({ env with frames := f :: fs } : Environment) = env from by rw [← hf]]
  | cons q rest ih =>
    intro env f fs hf
    obtain ⟨⟨n, t⟩, v⟩ := q
    have hadd : env.add_local n v = .ok { env with frames := ((n, v) :: f) :: fs } := by
      simp [Environment.add_local, hf]
    simp only [bindParams, hadd]
    rw [ih { env with frames := ((n, v) :: f) :: fs } ((n, v) :: f) fs rfl]
    simp [List.reverse_cons, List.append_assoc]

/-- Helper: in the frame `PList.eval` builds, the name of parameter `k`
(with all parameter names distinct) is bound to argument `k` when one was
supplied, and is absent otherwise. -/
theorem zip_frame_lookup (params : List (String × Ty)) :
    ∀ (vals : List RVal), (params.map Prod.fst).Nodup →
      ∀ (k : Nat) (hk : k < params.length),
        (((params.zip vals).map fun q => (q.1.1, q.2)).reverse).lookup
          (params.get ⟨k, hk⟩).1 = vals.get? k := by
  induction params with
  | nil => intro vals _ k hk; simp at hk
  | cons p ps ih =>
    intro vals hnd k hk
    obtain ⟨n, t⟩ := p
    rw [List.map_cons, List.nodup_cons] at hnd
    obtain ⟨hn, hnd2⟩ := hnd
    cases vals with
    | nil => simp [List.lookup]
    | cons v vs =>
      simp only [List.zip_cons_cons, List.map_cons, List.reverse_cons]
      cases k with
      | zero =>
        have hrevnone :
            (((ps.zip vs).map fun q => (q.1.1, q.2)).reverse).lookup n = Option.none := by
          apply frame_lookup_eq_none
          intro hmem
          apply hn
          apply zip_keys_subset ps vs n
          simpa [List.map_reverse, List.mem_reverse] using hmem
        rw [frame_lookup_append]
        rw [show (((n, t) :: ps).get ⟨0, hk⟩).1 = n from rfl]
        rw [hrevnone]
        simp [List.lookup]
      | succ k' =>
        have hk' : k' < ps.length := by simpa using hk
        have ihres := ih vs hnd2 k' hk'
        rw [frame_lookup_append]
        simp only [List.get_cons_succ, List.get?_cons_succ]
        rw [ihres]
        cases hgv : vs.get? k' with
        | some w => rfl
        | none =>
          have hne : ((ps[k']).1 == n) = false := by
            apply beq_eq_false_iff_ne.mpr
            intro hcontr
            apply hn
            rw [← hcontr]
            exact List.mem_map.mpr ⟨ps[k'], List.getElem_mem hk', rfl⟩
          simp [List.lookup, hne]

/-- Claim C8, confirmed: a call whose argument count differs from the
parameter count does not fail: `PList.eval` evaluates all arguments in the
caller's environment (hypothesis `h`), pushes a new frame, and binds
parameters positionally through `zip`, which stops at the shorter list —
parameter `k` is bound to argument `k` when `k < |args|` and left unbound
otherwise, and surplus arguments are dropped. -/
theorem c8_plist_arity (p : PList) (env : Environment) (args : List Value)
    (vals : List RVal) (h : evalValues env args = .ok vals)
    (hnd : (p.params.map Prod.fst).Nodup) :
    PList.eval p env args =
      .ok { env with frames :=
        ((((p.params.zip vals).map fun q => (q.1.1, q.2)).reverse) : Frame)
          :: env.frames } ∧
    ∀ (k : Nat) (hk : k < p.params.length),
      ((((p.params.zip vals).map fun q => (q.1.1, q.2)).reverse).lookup
        (p.params.get ⟨k, hk⟩).1) = vals.get? k := by
  constructor
  · unfold PList.eval
    rw [h]
    show bindParams env.push_frame (p.params.zip vals) = _
    rw [bindParams_ok (p.params.zip vals) env.push_frame [] env.frames rfl]
    simp [Environment.push_frame]
  · intro k hk
    exact zip_frame_lookup p.params vals hnd k hk

/-- Claim C8 witness: calling a two-parameter function with one argument
binds `#a` to the argument and leaves `#b` unbound, without any failure. -/
theorem c8_plist_arity_witness :
    evalValues (mkLocalEnv []) [.intConst 7] = .ok [.int 7] ∧
    PList.eval c8Params (mkLocalEnv []) [.intConst 7] =
      .ok { mkLocalEnv [] with
            frames := [("#a", RVal.int 7)] :: (mkLocalEnv []).frames } ∧
    ([("#a", RVal.int 7)] : Frame).lookup "#a" = some (RVal.int 7) ∧
    ([("#a", RVal.int 7)] : Frame).lookup "#b" = Option.none := by
  have h := c8_plist_arity c8Params (mkLocalEnv []) [.intConst 7] [.int 7]
    (by decide) (by decide)
  exact ⟨by decide, h.1, h.2 0 (by decide), h.2 1 (by decide)⟩

/-- Claim C9, confirmed: `Fncall.eval` tests for the builtin names
`@write` and `@read` before it consults the global table, so even in an
environment whose program has bound its own `@write` and `@read`
definitions, a call to `@write` prints its first argument and returns `0`,
and a call to `@read` consumes one integer from stdin — the user
definitions are never invoked. -/
theorem c9_builtin_intercept (fuel : Nat) (env : Environment) (f g : FunDefn)
    (hw : env.get_global "@write" = some (.fn f))
    (hr : env.get_global "@read" = some (.fn g))
    (a : Value) (rest args : List Value) (v : RVal) (n : Int) (tl : List Int)
    (ha : a.eval env = .ok v) (hi : env.input = n :: tl) :
    Fncall.eval (fuel + 1) env "@write" (a :: rest) =
      .ok (.int 0) { env with output := env.output ++ [pyStr v] } ∧
    Fncall.eval (fuel + 1) env "@read" args =
      .ok (.int n) { env with input := tl } := by
  constructor
  · simp [Fncall.eval, ha, onOk]
  · simp [Fncall.eval, hi]

/-- Claim C9 witness: in `c9Env`, which defines its own `@write` and
`@read` and has `7` waiting on stdin, `call @write, 3` prints `3` and
`call @read` reads `7`. -/
theorem c9_builtin_intercept_witness :
    Fncall.eval 4 c9Env "@write" [.intConst 3] =
      .ok (.int 0) { c9Env with output := c9Env.output ++ [pyStr (.int 3)] } ∧
    Fncall.eval 4 c9Env "@read" [] =
      .ok (.int 7) { c9Env with input := [] } :=
  c9_builtin_intercept 3 c9Env unitFn unitFn (by decide) (by decide)
    (.intConst 3) [] [] (.int 3) 7 [] (by decide) (by decide)

/-- Claim C10, confirmed: basic blocks are registered in the same frame
table that `let` bindings write through `add_local`, so a binding whose
name equals a block label overwrites the block: after the two insertions
the lookup yields the bound value, a `jmp` to that label hands the bound
value (not the block) to the dynamic `.eval()` dispatch, and that dispatch
runs the value — for an `int` it raises `AttributeError`, for the
`UnitConst` instance it returns the unit value.  Concretely, the program
`shadowMain`, whose entry block binds `%t = call @u` and then jumps to
`%t`, returns `()` from the call instead of executing the block `%t`
(which would return `42`). -/
theorem c10_label_shadowing (env : Environment) (L : String) (bb : BasicBlock)
    (v : RVal) (env1 env2 : Environment) (fuel : Nat) (n : Int)
    (hL : startsWithAt L = false)
    (h1 : env.add_local L (.block bb) = .ok env1)
    (h2 : env1.add_local L v = .ok env2) :
    Environment.get env2 L = .ok v ∧
    Terminator.eval (fuel + 1) env2 (.jmp L) = dynEval fuel env2 v ∧
    dynEval (fuel + 1) env2 (.int n) = .err .attributeError env2 ∧
    dynEval (fuel + 1) env2 .unit = .ok .unit env2 ∧
    (interpret 30 c10LinkedEnv).val? = some .unit := by
  have hget : Environment.get env2 L = .ok v := by
    cases henv : env.frames with
    | nil => rw [Environment.add_local, henv] at h1; cases h1
    | cons fr frs =>
      rw [Environment.add_local, henv] at h1
      have he1 : env1 = { env with frames := ((L, .block bb) :: fr) :: frs } := by
        cases h1; rfl
      rw [Environment.add_local, he1] at h2
      have he2 : env2 =
          { env with frames := ((L, v) :: (L, .block bb) :: fr) :: frs } := by
        cases h2; rfl
      rw [he2]
      simp [Environment.get, Environment.get_local, hL, List.lookup, pyFromOption]
  refine ⟨hget, ?_, ?_, ?_, by decide⟩
  · simp [Terminator.eval, hget, onOk]
  · rfl
  · rfl

set_option maxRecDepth 40000 in
/-- Claim C10 witness: the shadowing facts at the concrete frame where the
label `%t` was first bound to `c10Block` and then overwritten by `5`. -/
theorem c10_label_shadowing_witness :
    Environment.get c10Env2 "%t" = .ok (.int 5) ∧
    Terminator.eval 4 c10Env2 (.jmp "%t") = dynEval 3 c10Env2 (.int 5) ∧
    dynEval 4 c10Env2 (.int 5) = .err .attributeError c10Env2 ∧
    dynEval 4 c10Env2 .unit = .ok .unit c10Env2 ∧
    (interpret 30 c10LinkedEnv).val? = some .unit :=
  c10_label_shadowing (mkLocalEnv []) "%t" c10Block (.int 5) c10Env1 c10Env2 3 5
    (by decide) (by decide) (by decide)

/-- Helper: `evalValues` preserves the number of values. -/
theorem evalValues_length (env : Environment) :
    ∀ (l : List Value) (vs : List RVal),
      evalValues env l = .ok vs → vs.length = l.length := by
  intro l
  induction l with
  | nil =>
    intro vs h
    simp only [evalValues] at h
    cases h
    rfl
  | cons v rest ih =>
    intro vs h
    simp only [evalValues] at h
    cases hv : v.eval env with
    | error er => rw [hv] at h; cases h
    | ok rv =>
      rw [hv] at h
      cases hrest : evalValues env rest with
      | error er => rw [hrest] at h; cases h
      | ok vs' =>
        rw [hrest] at h
        cases h
        simp [ih vs' hrest]

/-- Helper: pulling the start value out of the Horner fold. -/
theorem horner_shift (offs : List (Int × Int)) :
    ∀ a : Int,
      offs.foldl (fun acc q => acc * q.2 + q.1) a =
        a * (offs.map Prod.snd).prod +
          offs.foldl (fun acc q => acc * q.2 + q.1) 0 := by
  induction offs with
  | nil => intro a; simp
  | cons q rest ih =>
    intro a
    obtain ⟨i, d⟩ := q
    simp only [List.foldl_cons, List.map_cons, List.prod_cons]
    rw [ih (a * d + i), ih (0 * d + i)]
    ring

/-- Helper: the `Gep.eval` loop over integer-constant indices and bounds
is the Horner fold. -/
theorem gepFold_const (env : Environment) (offs : List (Int × Int)) :
    ∀ a : Int,
      gepFold env a (offs.map fun q => (Value.intConst q.1, Dim.intConst q.2)) =
        .ok (offs.foldl (fun acc q => acc * q.2 + q.1) a) := by
  induction offs with
  | nil => intro a; simp [gepFold]
  | cons q rest ih =>
    intro a
    obtain ⟨i, d⟩ := q
    simp only [List.map_cons, gepFold, Value.eval, RVal.asNum?, Dim.eval]
    exact ih (a * d + i)

/-- Helper: the first allocation (from the fresh environment) returns
`Ptr 0` and lays a non-empty initialiser out from address 0. -/
theorem allocate_init (inp : List Int) (k : Int) (vals : List RVal)
    (h : vals ≠ []) :
    ∃ (junk : List RVal) (cap : Int),
      (Environment.init inp).allocate k vals =
        (RVal.ptr 0,
         { global_env := [], frames := [], stack := vals ++ junk,
           capacity := cap, size := 0 + k, output := [], input := inp }) := by
  simp only [Environment.allocate, Environment.init]
  by_cases hc : (0 : Int) + k > (1024 : Int)
  · rw [if_pos hc, if_pos h]
    exact ⟨_, _, rfl⟩
  · rw [if_neg hc, if_pos h]
    exact ⟨_, _, rfl⟩

/-- Helper: loading the single global declaration `@a : region T, k = vals`
into the fresh environment binds `@a` to `Ptr 0` and lays the initialiser
values out from address 0 of the cell store. -/
theorem linkDecl_global_first (inp : List Int) (tpe : Ty) (k : Int)
    (values : List Value) (vals : List RVal) (genv : Environment)
    (hne : values ≠ [])
    (hvals : evalValues (Environment.init inp) values = .ok vals)
    (hlink : linkDecl (Environment.init inp) (.globalDecl "@a" tpe k values) = .ok genv) :
    genv.global_env = [("@a", RVal.ptr 0)] ∧
    ∃ junk : List RVal, genv.stack = vals ++ junk := by
  have hvne : vals ≠ [] := by
    intro hv
    apply hne
    have hlen := evalValues_length (Environment.init inp) values vals hvals
    rw [hv] at hlen
    cases values with
    | nil => rfl
    | cons a l => simp at hlen
  simp only [linkDecl] at hlink
  split at hlink
  · exact Except.noConfusion hlink
  · simp only [hvals] at hlink
    obtain ⟨junk, cap, halloc⟩ := allocate_init inp k vals hvne
    rw [halloc] at hlink
    simp only [Environment.add_global, List.lookup] at hlink
    cases hlink
    exact ⟨rfl, junk, rfl⟩

set_option maxRecDepth 40000 in
/-- Claim C1, counterexample: with `@z : region i32, 1` declared before
`@a : region i32, 2 = [10, 20]`, the region `@a` starts at address 1, and
`offset i32, @a, [0 < 2]` yields `Ptr 2` — not `Ptr (1 + 0) = Ptr 1` as
the claimed flat-offset formula requires — so the subsequent load yields
`20` instead of `v₀ = 10`: `Gep.eval` multiplies the base address by the
dimension instead of adding a flat offset to it. -/
theorem c1_counterexample :
    Environment.get c1Env "@a" = .ok (.ptr 1) ∧
    Gep.eval c1Env "@a" [(.intConst 0, .intConst 2)] = .ok (.ptr 2) ∧
    Environment.load c1EnvP "%p" = .ok (.int 20) ∧
    Environment.load c1EnvP "%p" ≠ .ok (.int 10) ∧
    (2 : Int) ≠ 1 + 0 := by
  refine ⟨by decide, by decide, by decide, by decide, by decide⟩

/-- Claim C1 as amended: for integer-constant dimensions the resulting
address is `p.addr · (d1⋯dn)` plus the flat row-major offset
`((…(i1·d2)+i2)·d3+…)·dn+in` (the Horner fold from 0): the base address is
multiplied by the product of all dimensions, not kept as-is.
Consequently `load (offset i32, @a, [i < k])` yields `vᵢ` only when the
base address of `@a` is 0, i.e. when `@a` is the program's first
declaration, as in the second and third conjuncts. -/
theorem c1_gep_base_scaled
    (env : Environment) (name : String) (a : Int) (offs : List (Int × Int))
    (hget : env.get name = .ok (.ptr a))
    (inp : List Int) (tpe : Ty) (k : Int) (values : List Value)
    (vals : List RVal) (i : Nat) (genv : Environment)
    (hlink : linkProgram (Environment.init inp)
      [.globalDecl "@a" tpe k values] = .ok genv)
    (hvals : evalValues (Environment.init inp) values = .ok vals)
    (hi : i < vals.length) :
    Gep.eval env name (offs.map fun q => (Value.intConst q.1, Dim.intConst q.2)) =
      .ok (.ptr (a * (offs.map Prod.snd).prod +
        offs.foldl (fun acc q => acc * q.2 + q.1) 0)) ∧
    Gep.eval genv "@a" [(.intConst (i : Int), .intConst k)] = .ok (.ptr (i : Int)) ∧
    Environment.load (bindPtr genv (.ptr (i : Int))) "%p" = .ok (vals.getD i .none) := by
  have hgenv : genv.global_env = [("@a", RVal.ptr 0)] ∧
      ∃ junk : List RVal, genv.stack = vals ++ junk := by
    have hne : values ≠ [] := by
      intro hv
      rw [hv] at hvals
      simp only [evalValues] at hvals
      cases hvals
      simp at hi
    apply linkDecl_global_first inp tpe k values vals genv hne hvals
    simp only [linkProgram] at hlink
    cases hld : linkDecl (Environment.init inp) (.globalDecl "@a" tpe k values) with
    | error er => rw [hld] at hlink; exact Except.noConfusion hlink
    | ok e' =>
      rw [hld] at hlink
      simp only [linkProgram] at hlink
      cases hlink
      rfl
  obtain ⟨hglob, junk, hstack⟩ := hgenv
  have hgetA : genv.get "@a" = .ok (.ptr 0) := by
    have hsw : startsWithAt "@a" = true := rfl
    simp [Environment.get, hsw, Environment.get_global, hglob, List.lookup, pyFromOption]
  refine ⟨?_, ?_, ?_⟩
  · unfold Gep.eval
    rw [hget]
    show (match gepFold env a
        (offs.map fun q => (Value.intConst q.1, Dim.intConst q.2)) with
      | .error er => (.error er : Except Err RVal)
      | .ok addr => .ok (.ptr addr)) = _
    rw [gepFold_const env offs a, horner_shift offs a]
  · unfold Gep.eval
    rw [hgetA]
    show (match gepFold genv 0 [(.intConst (i : Int), .intConst k)] with
      | .error er => (.error er : Except Err RVal)
      | .ok addr => .ok (.ptr addr)) = _
    simp [gepFold, Value.eval, RVal.asNum?, Dim.eval]
  · have hbind : bindPtr genv (.ptr (i : Int)) =
        { genv with frames := [("%p", RVal.ptr (i : Int))] :: genv.frames } := by
      simp [bindPtr, Environment.push_frame, Environment.add_local]
    rw [hbind]
    have hgetp : Environment.get
        { genv with frames := [("%p", RVal.ptr (i : Int))] :: genv.frames } "%p" =
        .ok (.ptr (i : Int)) := by
      have hsw : startsWithAt "%p" = false := rfl
      simp [Environment.get, hsw, Environment.get_local, List.lookup, pyFromOption]
    unfold Environment.load
    rw [hgetp]
    show pyIndex genv.stack (i : Int) = _
    rw [hstack]
    have hnorm : pyNorm (vals ++ junk) (i : Int) = (i : Int) := by
      unfold pyNorm
      rw [if_neg (by omega)]
    have hcond : 0 ≤ pyNorm (vals ++ junk) (i : Int) ∧
        pyNorm (vals ++ junk) (i : Int) < ((vals ++ junk).length : Int) := by
      rw [hnorm]
      simp only [List.length_append]
      omega
    unfold pyIndex
    rw [dif_pos hcond]
    congr 1
    have htn : (pyNorm (vals ++ junk) (i : Int)).toNat = i := by
      rw [hnorm]
      exact Int.toNat_natCast i
    have hlt : (pyNorm (vals ++ junk) (i : Int)).toNat < (vals ++ junk).length := by
      omega
    rw [List.get_eq_getElem]
    simp only [htn]
    rw [List.getElem_append_left hi, List.getD_eq_getElem vals .none hi]

set_option maxRecDepth 40000 in
/-- Claim C1 witness: the amended statement at `%p ↦ Ptr 3` with
`offset i32, %p, [2 < 5]` (yielding `3·5 + 2 = 17`) and at the
first-declared region `@a : region i32, 2 = [10, 20]` with index `1`. -/
theorem c1_gep_base_scaled_witness :
    Gep.eval c7Env "%p" [(.intConst 2, .intConst 5)] = .ok (.ptr 17) ∧
    Gep.eval c1GEnv "@a" [(.intConst 1, .intConst 2)] = .ok (.ptr 1) ∧
    Environment.load (bindPtr c1GEnv (.ptr 1)) "%p" = .ok (.int 20) := by
  have h := c1_gep_base_scaled c7Env "%p" 3 [(2, 5)] (by decide)
    [] .i32 2 [.intConst 10, .intConst 20] [.int 10, .int 20] 1 c1GEnv
    (by decide) (by decide) (by decide)
  refine ⟨h.1.trans (by decide), h.2.1.trans (by decide), h.2.2.trans (by decide)⟩

set_option maxRecDepth 40000 in
/-- Claim C2, counterexample: the program `fn @main() -> () { %0: ret () }`
exits with status 1 (Python `exit()` receives the non-integer `UnitConst`
instance) and its stdout is not empty (the driver prints the
`Exit with code ...` summary line), where the claim requires exit status 0
and empty stdout. -/
theorem c2_counterexample :
    (runProgram 10 [.funDefn unitMain] []).2 = 1 ∧
    (runProgram 10 [.funDefn unitMain] []).1 ≠ [] := by
  refine ⟨by decide, by decide⟩

/-- Claim C2 as amended: when `@main` returns normally, the driver prints
the `Exit with code ...` summary line to stdout — so stdout is never
empty — and then calls `exit(return_value)`: an integer return `n` gives
exit status `n` reduced modulo 256 (the operating system truncates the
status to a byte), while the unit return `()` hands `exit` the
`UnitConst` instance, a non-integer, and the exit status is 1, not 0. -/
theorem c2_exit_semantics (fuel : Nat) (decls : List Decl) (inp : List Int)
    (env envF : Environment) (rv : RVal) (n : Int)
    (hlink : linkProgram (Environment.init inp) decls = .ok env)
    (hrun : interpret fuel env = .ok rv envF) :
    runProgram fuel decls inp = (envF.output ++ [exitLine rv], pyExitCode rv) ∧
    (runProgram fuel decls inp).1 ≠ [] ∧
    (rv = .int n → pyExitCode rv = (n % 256).toNat) ∧
    (rv = .unit → pyExitCode rv = 1) := by
  have hmain : runProgram fuel decls inp =
      (envF.output ++ [exitLine rv], pyExitCode rv) := by
    unfold runProgram
    rw [hlink]
    show (match interpret fuel env with
      | .err _ env' => (env'.output, 1)
      | .ok rv env' => (env'.output ++ [exitLine rv], pyExitCode rv)) = _
    rw [hrun]
  refine ⟨hmain, ?_, ?_, ?_⟩
  · rw [hmain]
    simp
  · intro hn
    rw [hn]
    rfl
  · intro hu
    rw [hu]
    rfl

set_option maxRecDepth 40000 in
/-- Claim C2 witness: the amended statement on the program whose `@main`
returns `5`: its stdout is the single summary line and its exit status is
`5 % 256 = 5`. -/
theorem c2_exit_semantics_witness :
    runProgram 10 [.funDefn intMain] [] =
      (c2FinalEnv.output ++ [exitLine (.int 5)], pyExitCode (.int 5)) ∧
    (runProgram 10 [.funDefn intMain] []).1 ≠ [] ∧
    (RVal.int 5 = .int 5 → pyExitCode (.int 5) = ((5 : Int) % 256).toNat) ∧
    (RVal.int 5 = .unit → pyExitCode (.int 5) = 1) :=
  c2_exit_semantics 10 [.funDefn intMain] [] c2LinkedEnv c2FinalEnv (.int 5) 5
    (by decide) (by decide)
